import Mathlib

/-!
Verification of the QuickMCP core (`src/core/server.ts`, `src/utils/response.ts`)
against its natural-language specification.

The development is a shallow embedding of the TypeScript source:

* JavaScript runtime values are modelled by `JSValue` (numbers as `Int`;
  floating-point formatting is outside the scope of every claim treated here).
* A JavaScript exception is modelled by `JSError`: either an `Error` instance
  carrying its message, or a thrown non-`Error` value.
* `async` handlers that may throw are modelled as `JSValue → Except JSError JSValue`.
* The session table (`httpTransports`, a JavaScript `Map`) is modelled as an
  insertion-ordered association list with the `Map` operations `set`, `get`,
  `has` and `delete`.
* External collaborators (the SDK transport and engine, the Node HTTP layer) are
  modelled at their interface boundary: the events they deliver to the code
  under verification (`onsessioninitialized`, `onclose`, response-stream close)
  appear as explicit events; the handler bodies installed by the source are
  embedded verbatim.
-/

namespace QuickMCP

/-- A JavaScript runtime value.  Numbers are modelled as integers; none of the
verified claims depends on floating-point behaviour. -/
inductive JSValue where
  | vNull
  | vUndefined
  | vStr (s : String)
  | vNum (n : Int)
  | vBool (b : Bool)
  | vArr (elems : List JSValue)
  | vObj (fields : List (String × JSValue))
deriving Repr

/-- First field with the given key, as JavaScript property lookup on an object
literal whose keys are distinct. -/
def findField : List (String × JSValue) → String → Option JSValue
  | [], _ => none
  | (k2, v) :: rest, k => if k2 = k then some v else findField rest k

/-- JavaScript property access `v[k]`: `undefined` on non-objects and on absent
keys. -/
def jsGetProp (v : JSValue) (k : String) : JSValue :=
  match v with
  | .vObj fs => (findField fs k).getD .vUndefined
  | _ => .vUndefined

/-- JavaScript truthiness: `null`, `undefined`, `false`, `0` and `""` are falsy;
objects and arrays are always truthy. -/
def truthy : JSValue → Bool
  | .vNull => false
  | .vUndefined => false
  | .vStr s => s != ""
  | .vNum n => n != 0
  | .vBool b => b
  | .vArr _ => true
  | .vObj _ => true

/-- `typeof v === "object"` — true for objects, arrays and `null`. -/
def typeofIsObject : JSValue → Bool
  | .vNull => true
  | .vArr _ => true
  | .vObj _ => true
  | _ => false

/-- `Array.isArray v`. -/
def isArrayV : JSValue → Bool
  | .vArr _ => true
  | _ => false

/-! ### JSON serialization

`JSON.stringify(data, null, 2)` as used by `json` in `src/utils/response.ts`:
two-space pretty printing, `undefined` object entries skipped, `undefined`
array elements printed as `null`, and `undefined` at the top level yielding
no string at all (`none`). -/

/-- Lowercase hexadecimal digit. -/
def hexDigit (n : Nat) : Char :=
  if n < 10 then Char.ofNat (48 + n) else Char.ofNat (87 + n)

/-- Four-digit lowercase hexadecimal rendering, for `\uXXXX` escapes. -/
def hex4 (n : Nat) : String :=
  String.mk [hexDigit (n / 4096 % 16), hexDigit (n / 256 % 16),
             hexDigit (n / 16 % 16), hexDigit (n % 16)]

/-- JSON escape of a single character. -/
def escChar (c : Char) : String :=
  if c = '"' then "\\\""
  else if c = '\\' then "\\\\"
  else if c = '\n' then "\\n"
  else if c = '\r' then "\\r"
  else if c = '\t' then "\\t"
  else if c = '\x08' then "\\b"
  else if c = '\x0c' then "\\f"
  else if c.toNat < 32 then "\\u" ++ hex4 c.toNat
  else String.singleton c

/-- JSON string literal: surrounding quotes plus escaped body. -/
def jsonQuote (s : String) : String :=
  "\"" ++ String.join (s.data.map escChar) ++ "\""

mutual

/-- `JSON.stringify(v, null, 2)` at nesting context `ind` (the indentation of
the surrounding container).  `none` models the `undefined` result. -/
def jStr (ind : String) (v : JSValue) : Option String :=
  match v with
  | .vUndefined => none
  | .vNull => some "null"
  | .vBool b => some (if b then "true" else "false")
  | .vNum n => some (toString n)
  | .vStr s => some (jsonQuote s)
  | .vArr xs =>
      match xs with
      | [] => some "[]"
      | _ => some ("[\n" ++ String.intercalate ",\n" (jArr (ind ++ "  ") xs)
                   ++ "\n" ++ ind ++ "]")
  | .vObj fs =>
      match jObj (ind ++ "  ") fs with
      | [] => some "\x7b\x7d"
      | es => some ("\x7b\n" ++ String.intercalate ",\n" es ++ "\n" ++ ind ++ "\x7d")

/-- Serialized array elements, one line each; `undefined` elements render as
`null`. -/
def jArr (ind : String) (xs : List JSValue) : List String :=
  match xs with
  | [] => []
  | v :: rest => (ind ++ (jStr ind v).getD "null") :: jArr ind rest

/-- Serialized object entries, one line each; entries whose value serializes to
`undefined` are skipped. -/
def jObj (ind : String) (fs : List (String × JSValue)) : List String :=
  match fs with
  | [] => []
  | (k, v) :: rest =>
      match jStr ind v with
      | none => jObj ind rest
      | some s => (ind ++ jsonQuote k ++ ": " ++ s) :: jObj ind rest

end

/-- Top-level `JSON.stringify(v, null, 2)`. -/
def jsonStringify (v : JSValue) : Option String := jStr "" v

/-- A thrown JavaScript exception: an `Error` with its message, or any other
thrown value. -/
inductive JSError where
  | err (message : String)
  | nonError
deriving Repr, DecidableEq

/-- `error instanceof Error ? error.message : "Unknown error"` — the message
extraction used by every wrapper in `src/core/server.ts`. -/
def errMessage : JSError → String
  | .err m => m
  | .nonError => "Unknown error"

/-- An `async` JavaScript handler: it resolves to a value or rejects with an
exception. -/
def JSHandler : Type := JSValue → Except JSError JSValue

namespace Response

/-- `text` from `src/utils/response.ts`: `{type: "text", text: content}`. -/
def text (content : String) : JSValue :=
  .vObj [("type", .vStr "text"), ("text", .vStr content)]

/-- `json` from `src/utils/response.ts`: a text content element whose text is
`JSON.stringify(data, null, 2)` (the `text` property is `undefined` when the
serialization is). -/
def json (data : JSValue) : JSValue :=
  .vObj [("type", .vStr "text"),
         ("text", match jsonStringify data with
                  | some s => .vStr s
                  | none => .vUndefined)]

/-- `error` from `src/utils/response.ts`: a text content element with an
`Error: `-prefixed message. -/
def error (message : String) : JSValue :=
  .vObj [("type", .vStr "text"), ("text", .vStr ("Error: " ++ message))]

/-- `response` from `src/utils/response.ts`: `{content: [...]}`. -/
def response (content : List JSValue) : JSValue :=
  .vObj [("content", .vArr content)]

/-- `normalizeResponse` from `src/utils/response.ts`, branch for branch:
already-shaped responses pass through; primitives become `String(value)` text;
remaining non-null objects become `json(value)`; everything else becomes
`"No response"`.  The `match` arms partition `JSValue` exactly as the
`typeof` tests of the source partition JavaScript values. -/
def normalizeResponse (value : JSValue) : JSValue :=
  if truthy value && typeofIsObject value && isArrayV (jsGetProp value "content") then
    value
  else
    match value with
    | .vStr s => response [text s]
    | .vNum n => response [text (toString n)]
    | .vBool b => response [text (if b then "true" else "false")]
    | .vArr xs => response [json (.vArr xs)]
    | .vObj fs => response [json (.vObj fs)]
    | .vNull => response [text "No response"]
    | .vUndefined => response [text "No response"]

end Response

/-- `QuickMCPServer.wrapToolHandler`: normalize the resolved value; catch a
rejection and turn it into an error-content response.  The `name` parameter is
used by the source only for logging. -/
def wrapToolHandler (handler : JSHandler) (_name : String) : JSHandler :=
  fun args =>
    match handler args with
    | .ok result => .ok (Response.normalizeResponse result)
    | .error e =>
        .ok (Response.response
              [Response.error ("Tool execution failed: " ++ errMessage e)])

/-- `QuickMCPServer.wrapResourceHandler`: pass the resolved value through;
catch a rejection, log it, and re-throw a fresh `Error` with a prefixed
message. -/
def wrapResourceHandler (handler : JSHandler) (_name : String) : JSHandler :=
  fun args =>
    match handler args with
    | .ok result => .ok result
    | .error e => .error (.err ("Resource read failed: " ++ errMessage e))

/-- `QuickMCPServer.wrapPromptHandler`: pass the resolved value through; catch
a rejection, log it, and re-throw a fresh `Error` with a prefixed message. -/
def wrapPromptHandler (handler : JSHandler) (_name : String) : JSHandler :=
  fun args =>
    match handler args with
    | .ok result => .ok result
    | .error e => .error (.err ("Prompt execution failed: " ++ errMessage e))

/-! ### Schema converter (`SchemaConverter.toZodShape`)

`SimpleSchema` values: a field is either a string type tag, or a nested object
`{type, properties}` (the `properties` field is required by the TypeScript
type of the nested form). -/

/-- One `SimpleSchema` field value. -/
inductive SVal where
  | tag (s : String)
  | nested (type : String) (properties : List (String × SVal))
deriving Repr

/-- A Zod validator as produced by the converter. -/
inductive ZodType where
  | zstring
  | znumber
  | zboolean
  | zarrayAny
  | zrecordAny
  | zany
  | zobject (shape : List (String × ZodType))
deriving Repr

/-- The `switch` over string type tags in `SchemaConverter.toZodShape`. -/
def tagToZod (s : String) : ZodType :=
  if s = "string" then .zstring
  else if s = "number" then .znumber
  else if s = "boolean" then .zboolean
  else if s = "array" then .zarrayAny
  else if s = "object" then .zrecordAny
  else .zany

mutual

/-- Conversion of one field value, mirroring the branch structure of
`SchemaConverter.toZodShape`: string tags go through the `switch`; an
object-valued entry with `type === "object"` recurses into its properties;
everything else falls back to `z.any()`. -/
def convVal : SVal → ZodType
  | .tag s => tagToZod s
  | .nested t props => if t = "object" then .zobject (toZodShape props) else .zany

/-- `SchemaConverter.toZodShape`: entrywise conversion of the field map,
preserving entry order. -/
def toZodShape : List (String × SVal) → List (String × ZodType)
  | [] => []
  | (k, v) :: rest => (k, convVal v) :: toZodShape rest

end

mutual

/-- Acceptance behaviour of the produced Zod validators, modelling the external
`zod` library at its interface boundary: `z.string()/z.number()/z.boolean()`
accept exactly the matching primitives, `z.array(z.any())` exactly arrays,
`z.record(z.any())` exactly objects, `z.any()` everything, and `z.object(shape)`
objects whose listed fields all validate. -/
def zAccepts : ZodType → JSValue → Bool
  | .zstring, v => match v with | .vStr _ => true | _ => false
  | .znumber, v => match v with | .vNum _ => true | _ => false
  | .zboolean, v => match v with | .vBool _ => true | _ => false
  | .zarrayAny, v => isArrayV v
  | .zrecordAny, v => match v with | .vObj _ => true | _ => false
  | .zany, _ => true
  | .zobject shape, v => match v with
      | .vObj fs => zAcceptsShape shape (.vObj fs)
      | _ => false

/-- All fields of a shape validate against the corresponding properties. -/
def zAcceptsShape : List (String × ZodType) → JSValue → Bool
  | [], _ => true
  | (k, T) :: rest, v => zAccepts T (jsGetProp v k) && zAcceptsShape rest v

end

/-! ### Registry (`HandlerRegistry`)

The three kind-specific maps are JavaScript `Map`s; we model a `Map` as an
insertion-ordered association list.  `set` replaces the value of an existing
key in place and appends a fresh key at the end; `get` returns the value of
the first (unique) matching key; `delete` removes the key. -/

/-- `Map.prototype.set`. -/
def jsSet {α : Type} (m : List (String × α)) (k : String) (v : α) :
    List (String × α) :=
  match m with
  | [] => [(k, v)]
  | (k2, v2) :: rest =>
      if k2 = k then (k2, v) :: rest else (k2, v2) :: jsSet rest k v

/-- `Map.prototype.get`. -/
def jsLookup {α : Type} (m : List (String × α)) (k : String) : Option α :=
  match m with
  | [] => none
  | (k2, v) :: rest => if k2 = k then some v else jsLookup rest k

/-- `Map.prototype.has`. -/
def jsHas {α : Type} (m : List (String × α)) (k : String) : Bool :=
  (jsLookup m k).isSome

/-- `Map.prototype.delete` (on a map with unique keys). -/
def jsDelete {α : Type} (m : List (String × α)) (k : String) :
    List (String × α) :=
  m.filter (fun p => p.1 != k)

/-- `ToolRegistration.config` (`description`, optional `title`, optional
`schema`). -/
structure ToolConfig where
  description : String
  title : Option String
  schema : Option (List (String × SVal))

/-- `ToolRegistration`. -/
structure ToolRegistration where
  name : String
  config : ToolConfig
  handler : JSHandler

/-- `ResourceRegistration.config`. -/
structure ResourceConfig where
  uri : String
  description : String
  mimeType : String
  title : Option String
  isTemplate : Bool

/-- `ResourceRegistration`. -/
structure ResourceRegistration where
  name : String
  config : ResourceConfig
  handler : JSHandler

/-- `PromptRegistration.config`. -/
structure PromptConfig where
  description : String
  title : Option String
  schema : Option (List (String × SVal))

/-- `PromptRegistration`. -/
structure PromptRegistration where
  name : String
  config : PromptConfig
  handler : JSHandler

/-- `HandlerRegistry`: three insertion-ordered maps, one per kind of callable
unit. -/
structure HandlerRegistry where
  tools : List (String × ToolRegistration)
  resources : List (String × ResourceRegistration)
  prompts : List (String × PromptRegistration)

/-- The registry at construction time. -/
def emptyRegistry : HandlerRegistry := ⟨[], [], []⟩

/-- `HandlerRegistry.registerTool`. -/
def registerTool (r : HandlerRegistry) (name : String) (t : ToolRegistration) :
    HandlerRegistry :=
  { r with tools := jsSet r.tools name t }

/-- `HandlerRegistry.registerResource`. -/
def registerResource (r : HandlerRegistry) (name : String)
    (t : ResourceRegistration) : HandlerRegistry :=
  { r with resources := jsSet r.resources name t }

/-- `HandlerRegistry.registerPrompt`. -/
def registerPrompt (r : HandlerRegistry) (name : String)
    (t : PromptRegistration) : HandlerRegistry :=
  { r with prompts := jsSet r.prompts name t }

/-- `HandlerRegistry.getTools` (`Array.from(this.tools.values())`). -/
def getTools (r : HandlerRegistry) : List ToolRegistration :=
  r.tools.map Prod.snd

/-- `HandlerRegistry.getResources`. -/
def getResources (r : HandlerRegistry) : List ResourceRegistration :=
  r.resources.map Prod.snd

/-- `HandlerRegistry.getPrompts`. -/
def getPrompts (r : HandlerRegistry) : List PromptRegistration :=
  r.prompts.map Prod.snd

/-- `HandlerRegistry.getTool`. -/
def getTool (r : HandlerRegistry) (name : String) : Option ToolRegistration :=
  jsLookup r.tools name

/-- `HandlerRegistry.getResource`. -/
def getResource (r : HandlerRegistry) (name : String) :
    Option ResourceRegistration :=
  jsLookup r.resources name

/-- `HandlerRegistry.getPrompt`. -/
def getPrompt (r : HandlerRegistry) (name : String) : Option PromptRegistration :=
  jsLookup r.prompts name

/-- One registration call, of any of the three kinds. -/
inductive RegOp where
  | tool (name : String) (t : ToolRegistration)
  | resource (name : String) (t : ResourceRegistration)
  | prompt (name : String) (t : PromptRegistration)

/-- Apply one registration call to the registry. -/
def applyRegOp (r : HandlerRegistry) : RegOp → HandlerRegistry
  | .tool n t => registerTool r n t
  | .resource n t => registerResource r n t
  | .prompt n t => registerPrompt r n t

/-- Apply a sequence of registration calls. -/
def applyRegOps (r : HandlerRegistry) (ops : List RegOp) : HandlerRegistry :=
  ops.foldl applyRegOp r

/-- The tool registrations of an operation sequence, in order. -/
def toolOps : List RegOp → List (String × ToolRegistration) :=
  List.filterMap fun op => match op with
    | .tool n t => some (n, t)
    | _ => none

/-- The resource registrations of an operation sequence, in order. -/
def resourceOps : List RegOp → List (String × ResourceRegistration) :=
  List.filterMap fun op => match op with
    | .resource n t => some (n, t)
    | _ => none

/-- The prompt registrations of an operation sequence, in order. -/
def promptOps : List RegOp → List (String × PromptRegistration) :=
  List.filterMap fun op => match op with
    | .prompt n t => some (n, t)
    | _ => none

/-! ### Session router (`QuickMCPServer.setupSessionManagement`)

The HTTP routes for `POST /mcp`, `GET /mcp` and `DELETE /mcp` in session mode,
together with the two callbacks the route installs on each transport it
constructs (`onsessioninitialized` and `onclose`).  The SDK transport is an
external collaborator; the moments at which it mints a session id or reports
closure are delivered to the embedded code as explicit events. -/

/-- An SDK `StreamableHTTPServerTransport`, reduced to what the router code
reads: its identity and its `sessionId` property (set by the SDK once the
session initializes; `undefined` before that). -/
structure Transport where
  tid : Nat
  sessionId : Option String
deriving Repr, DecidableEq

/-- The mutable state of `QuickMCPServer` that session routing touches:
`httpTransports` (the session table) plus the transports constructed so far.
`nextTid` names the identity the next constructed transport will get. -/
structure ServerState where
  table : List (String × Nat)
  transports : List Transport
  nextTid : Nat
deriving Repr, DecidableEq

/-- An input to the session-mode router: an HTTP request on one of the three
verbs (with the `mcp-session-id` header value, absent or a string), or one of
the two transport callbacks being fired by the SDK. -/
inductive Event where
  | post (header : Option String) (body : JSValue)
  | get (header : Option String)
  | delete (header : Option String)
  | sessionInitialized (tid : Nat) (sid : String)
  | transportClosed (tid : Nat)

/-- What the router does with one HTTP request. -/
inductive RouteRsp where
  | forwarded (tid : Nat)
  | created (tid : Nat)
  | jsonError400 (code : Int) (msg : String)
  | textError400 (msg : String)
  | internalEvent
deriving Repr, DecidableEq

/-- Truthiness of `req.headers["mcp-session-id"]` as a JavaScript string or
`undefined`: absent and empty values are falsy. -/
def headerTruthy : Option String → Bool
  | none => false
  | some s => s != ""

/-- The string value of the header where the source reads it (only ever read
under a truthiness guard). -/
def headerVal : Option String → String
  | none => ""
  | some s => s

/-- `QuickMCPServer.isInitializeRequest`: `body && body.method === "initialize"`. -/
def isInitializeRequest (body : JSValue) : Bool :=
  truthy body &&
    (match jsGetProp body "method" with
     | .vStr s => s == "initialize"
     | _ => false)

/-- One step of the session-mode router, line for line from
`setupSessionManagement`:

* `POST`: a truthy header naming a table entry reuses that transport; a falsy
  header with an `initialize` body constructs (and connects) a fresh transport;
  everything else is answered `400` with JSON-RPC error `-32000`.
* `GET`/`DELETE`: a falsy or unknown header is answered `400` with the text
  `Invalid or missing session ID`; otherwise the request is forwarded to the
  bound transport.
* `sessionInitialized tid sid` runs the installed `onsessioninitialized`
  callback (`httpTransports.set(sessionId, transport)`); the SDK also sets the
  own `sessionId` property of the transport at that moment.
* `transportClosed tid` runs the installed `onclose` callback
  (`if (transport.sessionId) httpTransports.delete(transport.sessionId)`). -/
def handleEvent (st : ServerState) (e : Event) : ServerState × RouteRsp :=
  match e with
  | .post header body =>
      if headerTruthy header && jsHas st.table (headerVal header) then
        (st, .forwarded ((jsLookup st.table (headerVal header)).getD 0))
      else if !headerTruthy header && isInitializeRequest body then
        ({ st with transports := st.transports ++ [⟨st.nextTid, none⟩],
                   nextTid := st.nextTid + 1 },
         .created st.nextTid)
      else
        (st, .jsonError400 (-32000) "Bad Request: No valid session ID provided")
  | .get header =>
      if !headerTruthy header || !jsHas st.table (headerVal header) then
        (st, .textError400 "Invalid or missing session ID")
      else
        (st, .forwarded ((jsLookup st.table (headerVal header)).getD 0))
  | .delete header =>
      if !headerTruthy header || !jsHas st.table (headerVal header) then
        (st, .textError400 "Invalid or missing session ID")
      else
        (st, .forwarded ((jsLookup st.table (headerVal header)).getD 0))
  | .sessionInitialized tid sid =>
      ({ st with table := jsSet st.table sid tid,
                 transports := st.transports.map fun t =>
                   if t.tid = tid then { t with sessionId := some sid } else t },
       .internalEvent)
  | .transportClosed tid =>
      match st.transports.find? (fun t => t.tid == tid) with
      | some t =>
          match t.sessionId with
          | some sid =>
              if sid != "" then ({ st with table := jsDelete st.table sid },
                                 .internalEvent)
              else (st, .internalEvent)
          | none => (st, .internalEvent)
      | none => (st, .internalEvent)

/-- Apply a sequence of events, discarding the per-request responses. -/
def applyEvents (st : ServerState) (es : List Event) : ServerState :=
  es.foldl (fun s e => (handleEvent s e).1) st

/-! ### Resource registration callbacks (session mode vs stateless mode)

In session mode, `registerResourceWithMCP` adapts the engine calling
convention — `(uri, params)` for templates, `(uri)` for static resources —
into the single-object convention of the stored handler.  The stateless path
(`setupStatelessHttp`) registers the stored handler itself, so the first
positional engine argument (the `URL` object) lands in the `args`
parameter of the handler.  A `URL` object is modelled as a JavaScript object with its `href`
property. -/

/-- Session mode, template resource: the callback registered on the engine
(`async (uri, params) => resource.handler({uri: uri.href, params})`). -/
def sessionTemplateCallback (handler : JSHandler) (uri params : JSValue) :
    Except JSError JSValue :=
  handler (.vObj [("uri", jsGetProp uri "href"), ("params", params)])

/-- Session mode, static resource: the callback registered on the engine
(`async (uri) => resource.handler({uri: uri.href})`). -/
def sessionStaticCallback (handler : JSHandler) (uri : JSValue) :
    Except JSError JSValue :=
  handler (.vObj [("uri", jsGetProp uri "href")])

/-- Stateless mode, template resource: `resource.handler` is registered
directly, so the engine call `(uri, params)` reaches the unary handler with
the raw `URL` object as its single `args` parameter (the second positional
argument is dropped by a unary JavaScript function). -/
def statelessTemplateCallback (handler : JSHandler) (uri _params : JSValue) :
    Except JSError JSValue :=
  handler uri

/-- Stateless mode, static resource: `resource.handler` registered directly. -/
def statelessStaticCallback (handler : JSHandler) (uri : JSValue) :
    Except JSError JSValue :=
  handler uri

/-! ### Stateless request handler (`setupStatelessHttp`, `POST /mcp`)

The body of the stateless `POST` route is embedded as an instruction script in
source order; an interpreter tracks the ephemeral engine and transport, the
close handlers registered on the response stream, and the session table.
the Node HTTP layer fires the `close` event of the response stream on every
terminating path of the exchange; this external guarantee appears as the final
`fireResClose` step. -/

/-- A close operation registered on the response stream. -/
inductive CloseOp where
  | closeTransport
  | closeEngine
deriving Repr, DecidableEq

/-- One instruction of the stateless `POST` route body. -/
inductive SInstr where
  | newEngine
  | registerAll
  | newTransport
  | resOnClose (ops : List CloseOp)
  | connect
  | handleRequest
deriving Repr, DecidableEq

/-- The stateless route body, in source order (`src/core/server.ts`,
lines 457–515): construct the engine, re-register every record from the
registry, construct the transport, register the close handler on the response
stream, connect, then process the exchange. -/
def statelessScript : List SInstr :=
  [.newEngine, .registerAll, .newTransport,
   .resOnClose [.closeTransport, .closeEngine], .connect, .handleRequest]

/-- How one exchange of the stateless route can terminate: a successful
response, an exception caught by the `try/catch` of the route (answered `500`), or
an abrupt close of the client connection. -/
inductive XOutcome where
  | success
  | caughtError
  | abruptClose
deriving Repr, DecidableEq

/-- Interpreter state for one stateless exchange. -/
structure SLState where
  engineCreated : Bool
  transportCreated : Bool
  engineClosed : Bool
  transportClosed : Bool
  closers : List CloseOp
  responded500 : Bool
  table : List (String × Nat)
deriving Repr, DecidableEq

/-- Run one instruction of the stateless route body. -/
def runSInstr (s : SLState) : SInstr → SLState
  | .newEngine => { s with engineCreated := true }
  | .registerAll => s
  | .newTransport => { s with transportCreated := true }
  | .resOnClose ops => { s with closers := s.closers ++ ops }
  | .connect => s
  | .handleRequest => s

/-- Execute one registered close operation. -/
def runCloseOp (s : SLState) : CloseOp → SLState
  | .closeTransport => { s with transportClosed := true }
  | .closeEngine => { s with engineClosed := true }

/-- Node fires the `close` event of the response stream: every close handler
registered so far runs. -/
def fireResClose (s : SLState) : SLState :=
  s.closers.foldl runCloseOp s

/-- One full stateless exchange against a given session table: run the route
body, account for the outcome (`catch` answers `500`; the other outcomes do
not touch the interpreter state), then the response stream closes. -/
def statelessExchange (table : List (String × Nat)) (o : XOutcome) : SLState :=
  let s0 : SLState :=
    { engineCreated := false, transportCreated := false, engineClosed := false,
      transportClosed := false, closers := [], responded500 := false,
      table := table }
  let s1 := statelessScript.foldl runSInstr s0
  let s2 := match o with
            | .caughtError => { s1 with responded500 := true }
            | _ => s1
  fireResClose s2

/-! ### Lemmas about `normalizeResponse` -/

lemma isArrayV_iff (v : JSValue) : isArrayV v = true ↔ ∃ xs, v = .vArr xs := by
  cases v <;> simp [isArrayV]

lemma normalize_passthrough (v : JSValue)
    (h : isArrayV (jsGetProp v "content") = true) :
    Response.normalizeResponse v = v := by
  cases v with
  | vObj fs =>
      have hc : (truthy (.vObj fs) && typeofIsObject (.vObj fs) &&
          isArrayV (jsGetProp (.vObj fs) "content")) = true := by
        simp [truthy, typeofIsObject, h]
      simp [Response.normalizeResponse, hc]
  | vNull => simp [jsGetProp, isArrayV] at h
  | vUndefined => simp [jsGetProp, isArrayV] at h
  | vStr s => simp [jsGetProp, isArrayV] at h
  | vNum n => simp [jsGetProp, isArrayV] at h
  | vBool b => simp [jsGetProp, isArrayV] at h
  | vArr xs => simp [jsGetProp, isArrayV] at h

lemma normalize_vStr (s : String) :
    Response.normalizeResponse (.vStr s) = Response.response [Response.text s] := by
  simp [Response.normalizeResponse, truthy, typeofIsObject]

lemma normalize_vNum (n : Int) :
    Response.normalizeResponse (.vNum n) =
      Response.response [Response.text (toString n)] := by
  simp [Response.normalizeResponse, truthy, typeofIsObject]

lemma normalize_vBool (b : Bool) :
    Response.normalizeResponse (.vBool b) =
      Response.response [Response.text (if b then "true" else "false")] := by
  simp [Response.normalizeResponse, truthy, typeofIsObject]

lemma normalize_obj (v : JSValue) (h1 : typeofIsObject v = true)
    (hnull : v ≠ .vNull) (h3 : isArrayV (jsGetProp v "content") = false) :
    Response.normalizeResponse v = Response.response [Response.json v] := by
  cases v with
  | vArr xs => rfl
  | vObj fs => simp [Response.normalizeResponse, truthy, typeofIsObject, h3]
  | vNull => exact absurd rfl hnull
  | vUndefined => simp [typeofIsObject] at h1
  | vStr s => simp [typeofIsObject] at h1
  | vNum n => simp [typeofIsObject] at h1
  | vBool b => simp [typeofIsObject] at h1

lemma json_of_object (v : JSValue) (h1 : typeofIsObject v = true)
    (hnull : v ≠ .vNull) :
    ∃ s, jsonStringify v = some s ∧ Response.json v = Response.text s := by
  cases v with
  | vArr xs =>
      cases xs with
      | nil => exact ⟨"[]", rfl, rfl⟩
      | cons a l => exact ⟨_, rfl, rfl⟩
  | vObj fs =>
      rcases hj : jObj "  " fs with _ | ⟨e, es⟩ <;>
        simp [jsonStringify, jStr, hj, Response.json, Response.text]
  | vNull => exact absurd rfl hnull
  | vUndefined => simp [typeofIsObject] at h1
  | vStr s => simp [typeofIsObject] at h1
  | vNum n => simp [typeofIsObject] at h1
  | vBool b => simp [typeofIsObject] at h1

/-- C4: for every value returned by a registered tool handler, the normalized
result is an object whose `content` field is an array, and the shape is
uniform by input class: a value that already carries an array-valued `content`
field is returned unchanged; a string, number or boolean becomes a single text
content element containing `String(value)`; any other non-null object becomes
a single text content element containing its JSON serialization; `null` and
`undefined` become the single text element `No response`. -/
theorem c4_normalize_uniform_shape :
    (∀ v : JSValue, ∃ xs : List JSValue,
        jsGetProp (Response.normalizeResponse v) "content" = .vArr xs)
  ∧ (∀ v : JSValue, isArrayV (jsGetProp v "content") = true →
        Response.normalizeResponse v = v)
  ∧ (∀ s : String,
        Response.normalizeResponse (.vStr s) = Response.response [Response.text s])
  ∧ (∀ n : Int,
        Response.normalizeResponse (.vNum n) =
          Response.response [Response.text (toString n)])
  ∧ (∀ b : Bool,
        Response.normalizeResponse (.vBool b) =
          Response.response [Response.text (if b then "true" else "false")])
  ∧ (∀ v : JSValue, typeofIsObject v = true → v ≠ .vNull →
        isArrayV (jsGetProp v "content") = false →
        ∃ s : String, jsonStringify v = some s ∧
          Response.normalizeResponse v = Response.response [Response.text s])
  ∧ Response.normalizeResponse .vNull = Response.response [Response.text "No response"]
  ∧ Response.normalizeResponse .vUndefined =
      Response.response [Response.text "No response"] := by
  refine ⟨?_, normalize_passthrough, normalize_vStr, normalize_vNum,
          normalize_vBool, ?_, rfl, rfl⟩
  · intro v
    by_cases harr : isArrayV (jsGetProp v "content") = true
    · rcases (isArrayV_iff _).1 harr with ⟨xs, hxs⟩
      exact ⟨xs, by rw [normalize_passthrough v harr]; exact hxs⟩
    · have harr' : isArrayV (jsGetProp v "content") = false :=
        Bool.eq_false_iff.mpr harr
      cases v with
      | vNull => exact ⟨_, rfl⟩
      | vUndefined => exact ⟨_, rfl⟩
      | vStr s => exact ⟨_, by rw [normalize_vStr]; rfl⟩
      | vNum n => exact ⟨_, by rw [normalize_vNum]; rfl⟩
      | vBool b => exact ⟨_, by rw [normalize_vBool]; rfl⟩
      | vArr xs =>
          exact ⟨_, by rw [normalize_obj (.vArr xs) rfl (by simp) harr']; rfl⟩
      | vObj fs =>
          exact ⟨_, by rw [normalize_obj (.vObj fs) rfl (by simp) harr']; rfl⟩
  · intro v h1 hnull h3
    rcases json_of_object v h1 hnull with ⟨s, hs, hjson⟩
    exact ⟨s, hs, by rw [normalize_obj v h1 hnull h3, hjson]⟩

/-- Witness for C4: the pass-through clause at a value that already carries an
array-valued `content` field, and the serialization clause at a plain
object. -/
theorem c4_witness :
    Response.normalizeResponse (.vObj [("content", .vArr [])]) =
      .vObj [("content", .vArr [])]
  ∧ ∃ s, jsonStringify (.vObj [("a", .vNum 1)]) = some s ∧
      Response.normalizeResponse (.vObj [("a", .vNum 1)]) =
        Response.response [Response.text s] := by
  constructor
  · exact c4_normalize_uniform_shape.2.1 _ rfl
  · exact c4_normalize_uniform_shape.2.2.2.2.2.1 _ rfl (by simp) rfl

/-- C5 counterexample: a resource callback that rejects.  The wrapped handler
produced by `wrapResourceHandler` propagates a fresh exception instead of
returning a normalized error-content response, contradicting the claim that
all three kinds of wrapped callback return an error-content response. -/
theorem c5_counterexample :
    wrapResourceHandler (fun _ => .error (.err "boom")) "docs" (.vObj []) =
      .error (.err "Resource read failed: boom") := rfl

/-- C5 (amended): an exception from a tool callback is caught and turned into
a normalized error-content response; an exception from a resource or prompt
callback is caught and re-thrown as a fresh `Error` whose message carries the
prefix `Resource read failed: ` respectively `Prompt execution failed: ` —
propagated to the engine, not returned as a response. -/
theorem c5_wrapper_error_behaviour :
    (∀ (h : JSHandler) (name : String) (args : JSValue) (e : JSError),
        h args = .error e →
        wrapToolHandler h name args =
          .ok (Response.response
                [Response.error ("Tool execution failed: " ++ errMessage e)]))
  ∧ (∀ (h : JSHandler) (name : String) (args : JSValue) (e : JSError),
        h args = .error e →
        wrapResourceHandler h name args =
          .error (.err ("Resource read failed: " ++ errMessage e)))
  ∧ (∀ (h : JSHandler) (name : String) (args : JSValue) (e : JSError),
        h args = .error e →
        wrapPromptHandler h name args =
          .error (.err ("Prompt execution failed: " ++ errMessage e))) := by
  refine ⟨?_, ?_, ?_⟩ <;>
    · intro h name args e he
      simp [wrapToolHandler, wrapResourceHandler, wrapPromptHandler, he]

/-- Witness for C5 (amended) at a concrete rejecting callback of each kind. -/
theorem c5_witness :
    wrapToolHandler (fun _ => .error (.err "x")) "t" .vNull =
      .ok (Response.response [Response.error ("Tool execution failed: " ++ errMessage (.err "x"))])
  ∧ wrapResourceHandler (fun _ => .error (.err "x")) "r" .vNull =
      .error (.err ("Resource read failed: " ++ errMessage (.err "x")))
  ∧ wrapPromptHandler (fun _ => .error (.err "x")) "p" .vNull =
      .error (.err ("Prompt execution failed: " ++ errMessage (.err "x"))) :=
  ⟨c5_wrapper_error_behaviour.1 _ "t" _ _ rfl,
   c5_wrapper_error_behaviour.2.1 _ "r" _ _ rfl,
   c5_wrapper_error_behaviour.2.2 _ "p" _ _ rfl⟩

/-- C10: the wrapped tool handler never rejects — for every handler and every
argument it resolves to a value: either the normalization of the
resolved value, or (when the handler rejects) a response whose content is a
single text element whose text begins with `Error: Tool execution failed:`. -/
theorem c10_wrapped_tool_never_rejects :
    ∀ (h : JSHandler) (name : String) (args : JSValue),
      ∃ r : JSValue, wrapToolHandler h name args = .ok r ∧
        ((∃ v, h args = .ok v ∧ r = Response.normalizeResponse v) ∨
         (∃ e, h args = .error e ∧
            ∃ t : String, r = Response.response [Response.text t] ∧
              ∃ rest, t = "Error: Tool execution failed:" ++ rest)) := by
  intro h name args
  cases he : h args with
  | ok v =>
      exact ⟨Response.normalizeResponse v, by simp [wrapToolHandler, he],
             Or.inl ⟨v, rfl, rfl⟩⟩
  | error e =>
      refine ⟨Response.response
                [Response.error ("Tool execution failed: " ++ errMessage e)],
              by simp [wrapToolHandler, he], Or.inr ⟨e, rfl, ?_⟩⟩
      refine ⟨"Error: " ++ ("Tool execution failed: " ++ errMessage e), rfl,
              " " ++ errMessage e, ?_⟩
      rw [← String.append_assoc, ← String.append_assoc]
      rfl

/-! ### Theorems about the schema converter -/

/-- C7 counterexample: the string type tag `"object"` is not among the tags
the claim enumerates, so the claim files it under "every other or missing type
tag maps to an accept-anything validator"; the converter instead maps it to
`z.record(z.any())`, which rejects non-objects (for instance the number `1`),
while the accept-anything validator accepts them. -/
theorem c7_counterexample :
    toZodShape [("x", .tag "object")] = [("x", .zrecordAny)]
  ∧ zAccepts .zrecordAny (.vNum 1) = false
  ∧ zAccepts .zany (.vNum 1) = true :=
  ⟨rfl, rfl, rfl⟩

/-- C7 (amended): the schema adapter is a pure total entrywise mapping:
`string`, `number` and `boolean` map to the matching primitive validator,
`array` to an unconstrained list validator, the string tag `object` to a
record validator accepting exactly objects, an object-valued entry with type
`object` recurses into its properties, and every other type tag maps to an
accept-anything validator without throwing. -/
theorem c7_schema_adapter :
    (∀ schema : List (String × SVal),
        toZodShape schema = schema.map fun p => (p.1, convVal p.2))
  ∧ convVal (.tag "string") = .zstring
  ∧ convVal (.tag "number") = .znumber
  ∧ convVal (.tag "boolean") = .zboolean
  ∧ convVal (.tag "array") = .zarrayAny
  ∧ convVal (.tag "object") = .zrecordAny
  ∧ (∀ props, convVal (.nested "object" props) = .zobject (toZodShape props))
  ∧ (∀ t props, t ≠ "object" → convVal (.nested t props) = .zany)
  ∧ (∀ s, s ≠ "string" → s ≠ "number" → s ≠ "boolean" → s ≠ "array" →
        s ≠ "object" → convVal (.tag s) = .zany)
  ∧ (∀ v, zAccepts .zstring v = true ↔ ∃ s, v = .vStr s)
  ∧ (∀ v, zAccepts .znumber v = true ↔ ∃ n, v = .vNum n)
  ∧ (∀ v, zAccepts .zboolean v = true ↔ ∃ b, v = .vBool b)
  ∧ (∀ v, zAccepts .zarrayAny v = true ↔ ∃ xs, v = .vArr xs)
  ∧ (∀ v, zAccepts .zrecordAny v = true ↔ ∃ fs, v = .vObj fs)
  ∧ (∀ v, zAccepts .zany v = true) := by
  refine ⟨?_, rfl, rfl, rfl, rfl, rfl, ?_, ?_, ?_, ?_, ?_, ?_, ?_, ?_, ?_⟩
  · intro schema
    induction schema with
    | nil => rfl
    | cons p rest ih =>
        cases p with
        | mk k v => simp [toZodShape, ih]
  · intro props; simp [convVal]
  · intro t props h; simp [convVal, h]
  · intro s h1 h2 h3 h4 h5; simp [convVal, tagToZod, h1, h2, h3, h4, h5]
  · intro v; cases v <;> simp [zAccepts, isArrayV]
  · intro v; cases v <;> simp [zAccepts, isArrayV]
  · intro v; cases v <;> simp [zAccepts, isArrayV]
  · intro v; cases v <;> simp [zAccepts, isArrayV]
  · intro v; cases v <;> simp [zAccepts, isArrayV]
  · intro v; simp [zAccepts]

/-- Witness for C7 (amended): the fallback clauses at the concrete unknown tag
`date` and the non-`object` nested type `enum`. -/
theorem c7_witness :
    convVal (.tag "date") = .zany ∧ convVal (.nested "enum" []) = .zany :=
  ⟨c7_schema_adapter.2.2.2.2.2.2.2.2.1 "date" (by decide) (by decide)
     (by decide) (by decide) (by decide),
   c7_schema_adapter.2.2.2.2.2.2.2.1 "enum" [] (by decide)⟩

/-! ### Theorem about resource registration in the two HTTP modes -/

/-- C6: at the concrete engine read `(uri = URL with href
users://42/profile, params = {userId: "42"})`, the callback that session mode
registers (`registerResourceWithMCP`, which adapts the positional engine
arguments into the single `{uri, params}` object the stored handler expects)
and the callback that stateless mode registers (`setupStatelessHttp`, which
registers the stored handler itself) deliver different arguments to the same
stored handler: the session-mode handler sees `args.uri = "users://42/profile"`
while the stateless-mode handler receives the raw `URL` object, whose `uri`
property is `undefined`.  The same divergence occurs for static resources. -/
theorem c6_stateless_resource_divergence :
    sessionTemplateCallback (fun args => .ok (jsGetProp args "uri"))
        (.vObj [("href", .vStr "users://42/profile")])
        (.vObj [("userId", .vStr "42")])
      = .ok (.vStr "users://42/profile")
  ∧ statelessTemplateCallback (fun args => .ok (jsGetProp args "uri"))
        (.vObj [("href", .vStr "users://42/profile")])
        (.vObj [("userId", .vStr "42")])
      = .ok .vUndefined
  ∧ sessionStaticCallback (fun args => .ok (jsGetProp args "uri"))
        (.vObj [("href", .vStr "users://42/profile")])
      = .ok (.vStr "users://42/profile")
  ∧ statelessStaticCallback (fun args => .ok (jsGetProp args "uri"))
        (.vObj [("href", .vStr "users://42/profile")])
      = .ok .vUndefined
  ∧ (JSValue.vStr "users://42/profile") ≠ .vUndefined :=
  ⟨rfl, rfl, rfl, rfl, by simp⟩

/-! ### Theorem about the stateless request handler -/

/-- C9: in stateless mode the close handler that closes both the ephemeral
transport and the ephemeral engine is registered on the response stream before
the exchange is processed (before `connect` and `handleRequest` in the route
body), so on every terminating path of the exchange — success, caught error
answered `500`, or abrupt client close — both the transport and the engine end
up closed, and the session table is untouched. -/
theorem c9_stateless_teardown :
    ∀ (table : List (String × Nat)) (o : XOutcome),
      (statelessExchange table o).transportClosed = true
    ∧ (statelessExchange table o).engineClosed = true
    ∧ (statelessExchange table o).table = table
    ∧ statelessScript.indexOf (.resOnClose [.closeTransport, .closeEngine]) <
        statelessScript.indexOf .connect
    ∧ statelessScript.indexOf (.resOnClose [.closeTransport, .closeEngine]) <
        statelessScript.indexOf .handleRequest := by
  intro table o
  cases o <;> exact ⟨rfl, rfl, rfl, by decide, by decide⟩

/-! ### Lemmas about the session table operations -/

lemma jsLookup_jsSet_self {α : Type} (m : List (String × α)) (k : String) (v : α) :
    jsLookup (jsSet m k v) k = some v := by
  induction m with
  | nil => simp [jsSet, jsLookup]
  | cons p rest ih =>
      cases p with
      | mk k1 v1 =>
          by_cases h : k1 = k
          · simp [jsSet, jsLookup, h]
          · simp [jsSet, jsLookup, h, ih]

lemma jsLookup_jsSet_ne {α : Type} (m : List (String × α)) (k k2 : String)
    (v : α) (h : k ≠ k2) : jsLookup (jsSet m k v) k2 = jsLookup m k2 := by
  induction m with
  | nil => simp [jsSet, jsLookup, h]
  | cons p rest ih =>
      cases p with
      | mk k1 v1 =>
          by_cases h1 : k1 = k
          · subst h1
            simp [jsSet, jsLookup, h]
          · simp [jsSet, jsLookup, h1, ih]

lemma jsLookup_jsDelete_self {α : Type} (m : List (String × α)) (k : String) :
    jsLookup (jsDelete m k) k = none := by
  induction m with
  | nil => rfl
  | cons p rest ih =>
      cases p with
      | mk k1 v1 =>
          by_cases h : k1 = k
          · simpa [jsDelete, List.filter_cons, h] using ih
          · simpa [jsDelete, List.filter_cons, h, jsLookup] using ih

lemma jsLookup_jsDelete_of_none {α : Type} (m : List (String × α))
    (k k2 : String) (h : jsLookup m k2 = none) :
    jsLookup (jsDelete m k) k2 = none := by
  induction m with
  | nil => rfl
  | cons p rest ih =>
      cases p with
      | mk k1 v1 =>
          by_cases h1 : k1 = k2
          · simp [jsLookup, h1] at h
          · by_cases h2 : k1 = k
            · simp [jsLookup, h1] at h
              simpa [jsDelete, List.filter_cons, h2] using ih h
            · simp [jsLookup, h1] at h
              simpa [jsDelete, List.filter_cons, h2, jsLookup, h1] using ih h

/-- A step of the router never introduces a session id into the table other
than the id of a `sessionInitialized` event. -/
lemma table_absent_step (st : ServerState) (e : Event) (S : String)
    (h : jsLookup st.table S = none)
    (hf : ∀ tid sid, e = .sessionInitialized tid sid → sid ≠ S) :
    jsLookup (handleEvent st e).1.table S = none := by
  cases e with
  | post header body =>
      simp only [handleEvent]
      split
      · exact h
      · split
        · exact h
        · exact h
  | get header =>
      simp only [handleEvent]
      split
      · exact h
      · exact h
  | delete header =>
      simp only [handleEvent]
      split
      · exact h
      · exact h
  | sessionInitialized tid sid =>
      have hne : sid ≠ S := hf tid sid rfl
      simpa [handleEvent] using
        (jsLookup_jsSet_ne st.table sid S tid hne).trans h
  | transportClosed tid =>
      simp only [handleEvent]
      split
      · next t _ =>
          cases hsid : t.sessionId with
          | none => simp [hsid, h]
          | some sid =>
              simp only [hsid]
              split
              · exact jsLookup_jsDelete_of_none st.table sid S h
              · exact h
      · exact h

/-- Absence of a session id from the table is preserved by any event sequence
whose `sessionInitialized` events all carry other ids. -/
lemma table_absent_events (st : ServerState) (es : List Event) (S : String)
    (h : jsLookup st.table S = none)
    (hf : ∀ tid sid, Event.sessionInitialized tid sid ∈ es → sid ≠ S) :
    jsLookup (applyEvents st es).table S = none := by
  induction es generalizing st with
  | nil => exact h
  | cons e rest ih =>
      have hstep := table_absent_step st e S h
        (fun tid sid he => hf tid sid (he ▸ List.mem_cons_self e rest))
      have : applyEvents st (e :: rest) = applyEvents (handleEvent st e).1 rest := rfl
      rw [this]
      exact ih _ hstep (fun tid sid hm => hf tid sid (List.mem_cons_of_mem e hm))

/-! ### Theorems about the session router -/

/-- A JSON-RPC `initialize` envelope, as a handshake request body. -/
def initBody : JSValue :=
  .vObj [("jsonrpc", .vStr "2.0"), ("method", .vStr "initialize"), ("id", .vNum 1)]

/-- C1 counterexample: a `POST` carrying the session-id header with the empty
string as value — a value that is not a key of the (empty) session table.
JavaScript truthiness makes the router treat the empty header as absent, so a
handshake body slips into the new-session branch: the response is not a
SessionError, a transport is constructed, and once the SDK initializes the
session the table gains an entry. -/
theorem c1_counterexample :
    jsHas ([] : List (String × Nat)) "" = false
  ∧ (handleEvent ⟨[], [], 0⟩ (.post (some "") initBody)).2 = .created 0
  ∧ (handleEvent ⟨[], [], 0⟩ (.post (some "") initBody)).1.transports = [⟨0, none⟩]
  ∧ jsHas ((handleEvent (handleEvent ⟨[], [], 0⟩ (.post (some "") initBody)).1
        (.sessionInitialized 0 "u1")).1.table) "u1" = true :=
  ⟨rfl, rfl, rfl, rfl⟩

/-- C1 (amended): for every `POST`, `GET` or `DELETE` request whose session-id
header value is non-empty and is not a key of the session table, the router
answers a SessionError (`400`; JSON-RPC `-32000` for `POST`) and leaves the
whole server state — in particular the session table — unchanged.  (A `POST`
whose header value is the empty string is treated as carrying no header and
may instead start a handshake.) -/
theorem c1_unknown_session_rejected (st : ServerState) (sid : String)
    (body : JSValue) (h1 : sid ≠ "") (h2 : jsHas st.table sid = false) :
    handleEvent st (.post (some sid) body) =
      (st, .jsonError400 (-32000) "Bad Request: No valid session ID provided")
  ∧ handleEvent st (.get (some sid)) =
      (st, .textError400 "Invalid or missing session ID")
  ∧ handleEvent st (.delete (some sid)) =
      (st, .textError400 "Invalid or missing session ID") := by
  refine ⟨?_, ?_, ?_⟩ <;>
    simp [handleEvent, headerTruthy, headerVal, h2, h1]

/-- Witness for C1 (amended) at a concrete state and header value. -/
theorem c1_witness :
    handleEvent ⟨[("a", 3)], [⟨3, some "a"⟩], 4⟩ (.post (some "b") initBody) =
      (⟨[("a", 3)], [⟨3, some "a"⟩], 4⟩,
       .jsonError400 (-32000) "Bad Request: No valid session ID provided") :=
  (c1_unknown_session_rejected ⟨[("a", 3)], [⟨3, some "a"⟩], 4⟩ "b" initBody
    (by decide) (by decide)).1

/-- C2 counterexample: the handshake branch is reachable for a `POST` that
does carry a session-id header, provided its value is the empty string — the
router constructs a transport although the request has a header. -/
theorem c2_counterexample :
    (handleEvent ⟨[], [], 0⟩ (.post (some "") initBody)).1.transports = [⟨0, none⟩]
  ∧ (handleEvent ⟨[], [], 0⟩ (.post (some "") initBody)).2 = .created 0
  ∧ (some "" : Option String) ≠ none :=
  ⟨rfl, rfl, by simp⟩

/-- C2 (amended): in session mode a new transport is constructed (and may
later be entered into the session table) exactly for a `POST` whose session-id
header is absent or empty and whose JSON-RPC method is `initialize`; every
`POST` with an absent-or-empty header and a non-handshake method is rejected
with `-32000` and changes nothing. -/
theorem c2_new_transport_condition (st : ServerState) (header : Option String)
    (body : JSValue) :
    (headerTruthy header = false → isInitializeRequest body = true →
      handleEvent st (.post header body) =
        ({ st with transports := st.transports ++ [⟨st.nextTid, none⟩],
                   nextTid := st.nextTid + 1 },
         .created st.nextTid))
  ∧ ((handleEvent st (.post header body)).1.transports ≠ st.transports →
      headerTruthy header = false ∧ isInitializeRequest body = true)
  ∧ (headerTruthy header = false → isInitializeRequest body = false →
      handleEvent st (.post header body) =
        (st, .jsonError400 (-32000) "Bad Request: No valid session ID provided")) := by
  refine ⟨?_, ?_, ?_⟩
  · intro h1 h2
    simp [handleEvent, h1, h2]
  · intro hne
    by_cases h1 : headerTruthy header = true
    · exfalso
      apply hne
      by_cases h2 : jsHas st.table (headerVal header) = true
      · simp [handleEvent, h1, h2]
      · simp [handleEvent, h1, Bool.eq_false_iff.mpr h2]
    · have h1f : headerTruthy header = false := Bool.eq_false_iff.mpr h1
      by_cases h2 : isInitializeRequest body = true
      · exact ⟨h1f, h2⟩
      · exfalso
        apply hne
        simp [handleEvent, h1f, Bool.eq_false_iff.mpr h2]
  · intro h1 h2
    simp [handleEvent, h1, h2]

/-- Witness for C2 (amended) at a concrete handshake and a concrete rejected
request. -/
theorem c2_witness :
    handleEvent ⟨[], [], 5⟩ (.post none initBody) =
      (⟨[], [⟨5, none⟩], 6⟩, .created 5)
  ∧ handleEvent ⟨[], [], 5⟩ (.post none (.vObj [("method", .vStr "tools/call")])) =
      (⟨[], [], 5⟩,
       .jsonError400 (-32000) "Bad Request: No valid session ID provided") :=
  ⟨(c2_new_transport_condition ⟨[], [], 5⟩ none initBody).1 rfl rfl,
   (c2_new_transport_condition ⟨[], [], 5⟩ none
      (.vObj [("method", .vStr "tools/call")])).2.2 rfl rfl⟩

/-- C3: termination is idempotent.  For a session id `S` bound in the table to
transport `tid` (whose `sessionId` property the SDK set to `S`): the first
`DELETE` carrying `S` is forwarded to the bound transport and leaves the state
unchanged; when the transport then reports closure, the installed `onclose`
callback removes `S` from the table; a second `DELETE` carrying `S` is
rejected with a SessionError (`400`); and no later event sequence whose minted
session ids are all distinct from `S` (session ids are freshly generated
UUIDs) ever re-introduces `S` into the table. -/
theorem c3_termination_idempotent (st : ServerState) (S : String) (tid : Nat)
    (hS : S ≠ "")
    (hlook : jsLookup st.table S = some tid)
    (htr : st.transports.find? (fun t => t.tid == tid) = some ⟨tid, some S⟩) :
    handleEvent st (.delete (some S)) = (st, .forwarded tid)
  ∧ (handleEvent st (.transportClosed tid)).1 =
      { st with table := jsDelete st.table S }
  ∧ jsLookup (handleEvent st (.transportClosed tid)).1.table S = none
  ∧ handleEvent (handleEvent st (.transportClosed tid)).1 (.delete (some S)) =
      ((handleEvent st (.transportClosed tid)).1,
       .textError400 "Invalid or missing session ID")
  ∧ ∀ es : List Event,
      (∀ t2 sid, Event.sessionInitialized t2 sid ∈ es → sid ≠ S) →
      jsLookup (applyEvents (handleEvent st (.transportClosed tid)).1 es).table S
        = none := by
  have hst2 : (handleEvent st (.transportClosed tid)).1 =
      { st with table := jsDelete st.table S } := by
    simp [handleEvent, htr, hS]
  have habs : jsLookup (handleEvent st (.transportClosed tid)).1.table S = none := by
    rw [hst2]
    exact jsLookup_jsDelete_self st.table S
  refine ⟨?_, hst2, habs, ?_, ?_⟩
  · simp [handleEvent, headerTruthy, headerVal, hS, jsHas, hlook]
  · rw [hst2]
    simp [handleEvent, headerTruthy, headerVal, hS, jsHas, jsLookup_jsDelete_self]
  · intro es hf
    exact table_absent_events _ es S habs hf

/-- Witness for C3 at a concrete one-session state. -/
theorem c3_witness :
    handleEvent ⟨[("s1", 7)], [⟨7, some "s1"⟩], 8⟩ (.delete (some "s1")) =
      (⟨[("s1", 7)], [⟨7, some "s1"⟩], 8⟩, .forwarded 7)
  ∧ jsLookup (handleEvent ⟨[("s1", 7)], [⟨7, some "s1"⟩], 8⟩
        (.transportClosed 7)).1.table "s1" = none
  ∧ jsLookup (applyEvents (handleEvent ⟨[("s1", 7)], [⟨7, some "s1"⟩], 8⟩
        (.transportClosed 7)).1 [.sessionInitialized 9 "s2"]).table "s1" = none := by
  have h := c3_termination_idempotent ⟨[("s1", 7)], [⟨7, some "s1"⟩], 8⟩ "s1" 7
    (by decide) (by decide) (by decide)
  exact ⟨h.1, h.2.2.1, h.2.2.2.2 [.sessionInitialized 9 "s2"]
    (by intro t2 sid hm; simp at hm; simp [hm.2])⟩

/-! ### Characterization of the registry maps (C8)

`firstInsertKeys ex ops` lists the keys a sequence of `set` operations `ops`
adds to a map already holding the keys `ex`, in first-insertion order;
`lastWrite ops k` is the value of the last operation writing `k`. -/

/-- Keys newly inserted by a `set` sequence, in first-insertion order. -/
def firstInsertKeys {α : Type} (ex : List String) :
    List (String × α) → List String
  | [] => []
  | (k, _) :: rest =>
      if k ∈ ex then firstInsertKeys ex rest
      else k :: firstInsertKeys (ex ++ [k]) rest

/-- The value of the last write to a key in a `set` sequence. -/
def lastWrite {α : Type} : List (String × α) → String → Option α
  | [], _ => none
  | (k2, v) :: rest, k =>
      match lastWrite rest k with
      | some w => some w
      | none => if k2 = k then some v else none

/-- Fold a `set` sequence into a map. -/
def jsFold {α : Type} (m : List (String × α)) (ops : List (String × α)) :
    List (String × α) :=
  ops.foldl (fun acc p => jsSet acc p.1 p.2) m

lemma keys_jsSet {α : Type} (m : List (String × α)) (k : String) (v : α) :
    (jsSet m k v).map Prod.fst =
      if k ∈ m.map Prod.fst then m.map Prod.fst else m.map Prod.fst ++ [k] := by
  induction m with
  | nil => simp [jsSet]
  | cons p rest ih =>
      cases p with
      | mk k1 v1 =>
          by_cases h : k1 = k
          · subst h
            simp [jsSet]
          · by_cases h2 : k ∈ rest.map Prod.fst <;>
              simp [jsSet, h, h2, Ne.symm h, ih]

lemma jsFold_lookup {α : Type} (ops : List (String × α)) (m : List (String × α))
    (k : String) :
    jsLookup (jsFold m ops) k =
      match lastWrite ops k with
      | some w => some w
      | none => jsLookup m k := by
  induction ops generalizing m with
  | nil => rfl
  | cons p rest ih =>
      cases p with
      | mk k1 v1 =>
          have hstep : jsFold m ((k1, v1) :: rest) = jsFold (jsSet m k1 v1) rest := rfl
          rw [hstep, ih]
          cases hl : lastWrite rest k with
          | some w => simp [lastWrite, hl]
          | none =>
              by_cases h : k1 = k
              · subst h
                simp [lastWrite, hl, jsLookup_jsSet_self]
              · simp [lastWrite, hl, h, jsLookup_jsSet_ne m k1 k v1 h]

lemma jsFold_keys {α : Type} (ops : List (String × α)) (m : List (String × α)) :
    (jsFold m ops).map Prod.fst =
      m.map Prod.fst ++ firstInsertKeys (m.map Prod.fst) ops := by
  induction ops generalizing m with
  | nil => simp [jsFold, firstInsertKeys]
  | cons p rest ih =>
      cases p with
      | mk k1 v1 =>
          have hstep : jsFold m ((k1, v1) :: rest) = jsFold (jsSet m k1 v1) rest := rfl
          rw [hstep, ih, keys_jsSet]
          by_cases h : k1 ∈ m.map Prod.fst
          · simp [firstInsertKeys, h]
          · simp [firstInsertKeys, h]

lemma keys_nodup_jsSet {α : Type} (m : List (String × α)) (k : String) (v : α)
    (h : (m.map Prod.fst).Nodup) : ((jsSet m k v).map Prod.fst).Nodup := by
  rw [keys_jsSet]
  by_cases hk : k ∈ m.map Prod.fst
  · simpa [hk] using h
  · simp [hk, List.nodup_append, h, List.disjoint_singleton, hk]

lemma jsFold_keys_nodup {α : Type} (ops : List (String × α))
    (m : List (String × α)) (h : (m.map Prod.fst).Nodup) :
    ((jsFold m ops).map Prod.fst).Nodup := by
  induction ops generalizing m with
  | nil => exact h
  | cons p rest ih =>
      cases p with
      | mk k1 v1 => exact ih (jsSet m k1 v1) (keys_nodup_jsSet m k1 v1 h)

lemma jsLookup_mem {α : Type} (m : List (String × α)) (k : String) (v : α)
    (h : jsLookup m k = some v) : k ∈ m.map Prod.fst := by
  induction m with
  | nil => simp [jsLookup] at h
  | cons p rest ih =>
      cases p with
      | mk k1 v1 =>
          by_cases h1 : k1 = k
          · simp [h1]
          · simp [jsLookup, h1] at h
            simp [ih h]

lemma assoc_list_forall2 {α : Type} (m : List (String × α))
    (h : (m.map Prod.fst).Nodup) :
    List.Forall₂ (fun k r => jsLookup m k = some r)
      (m.map Prod.fst) (m.map Prod.snd) := by
  induction m with
  | nil => exact List.Forall₂.nil
  | cons p rest ih =>
      cases p with
      | mk k1 v1 =>
          simp only [List.map_cons]
          have hk1 : k1 ∉ rest.map Prod.fst := (List.nodup_cons.mp h).1
          refine List.Forall₂.cons (by simp [jsLookup]) ?_
          refine (ih (List.nodup_cons.mp h).2).imp ?_
          intro a b hab
          have hne : k1 ≠ a := fun he => hk1 (he ▸ jsLookup_mem rest a b hab)
          simpa [jsLookup, hne] using hab

lemma applyRegOps_tools (ops : List RegOp) (r : HandlerRegistry) :
    (applyRegOps r ops).tools = jsFold r.tools (toolOps ops) := by
  induction ops generalizing r with
  | nil => rfl
  | cons op rest ih =>
      cases op with
      | tool n t =>
          have h := ih ({ r with tools := jsSet r.tools n t })
          simpa [applyRegOps, applyRegOp, registerTool, toolOps, jsFold] using h
      | resource n t =>
          have h := ih ({ r with resources := jsSet r.resources n t })
          simpa [applyRegOps, applyRegOp, registerResource, toolOps] using h
      | prompt n t =>
          have h := ih ({ r with prompts := jsSet r.prompts n t })
          simpa [applyRegOps, applyRegOp, registerPrompt, toolOps] using h

lemma applyRegOps_resources (ops : List RegOp) (r : HandlerRegistry) :
    (applyRegOps r ops).resources = jsFold r.resources (resourceOps ops) := by
  induction ops generalizing r with
  | nil => rfl
  | cons op rest ih =>
      cases op with
      | tool n t =>
          have h := ih ({ r with tools := jsSet r.tools n t })
          simpa [applyRegOps, applyRegOp, registerTool, resourceOps] using h
      | resource n t =>
          have h := ih ({ r with resources := jsSet r.resources n t })
          simpa [applyRegOps, applyRegOp, registerResource, resourceOps, jsFold] using h
      | prompt n t =>
          have h := ih ({ r with prompts := jsSet r.prompts n t })
          simpa [applyRegOps, applyRegOp, registerPrompt, resourceOps] using h

lemma applyRegOps_prompts (ops : List RegOp) (r : HandlerRegistry) :
    (applyRegOps r ops).prompts = jsFold r.prompts (promptOps ops) := by
  induction ops generalizing r with
  | nil => rfl
  | cons op rest ih =>
      cases op with
      | tool n t =>
          have h := ih ({ r with tools := jsSet r.tools n t })
          simpa [applyRegOps, applyRegOp, registerTool, promptOps] using h
      | resource n t =>
          have h := ih ({ r with resources := jsSet r.resources n t })
          simpa [applyRegOps, applyRegOp, registerResource, promptOps] using h
      | prompt n t =>
          have h := ih ({ r with prompts := jsSet r.prompts n t })
          simpa [applyRegOps, applyRegOp, registerPrompt, promptOps, jsFold] using h

/-- C8: for every kind of callable unit and every sequence of registration
calls starting from the empty registry: the listing returns the records keyed
in first-insertion order with no duplicated name (re-registering an existing
name overwrites its record in place without moving it), each listed record is
the most recently registered one for its name, and the point lookup returns
the most recently registered record for a present name and `none` for an
absent one. -/
theorem c8_registry_semantics (ops : List RegOp) :
    ((applyRegOps emptyRegistry ops).tools.map Prod.fst =
        firstInsertKeys [] (toolOps ops)
      ∧ ((applyRegOps emptyRegistry ops).tools.map Prod.fst).Nodup
      ∧ (∀ k, getTool (applyRegOps emptyRegistry ops) k =
          lastWrite (toolOps ops) k)
      ∧ List.Forall₂ (fun k r => getTool (applyRegOps emptyRegistry ops) k = some r)
          ((applyRegOps emptyRegistry ops).tools.map Prod.fst)
          (getTools (applyRegOps emptyRegistry ops)))
  ∧ ((applyRegOps emptyRegistry ops).resources.map Prod.fst =
        firstInsertKeys [] (resourceOps ops)
      ∧ ((applyRegOps emptyRegistry ops).resources.map Prod.fst).Nodup
      ∧ (∀ k, getResource (applyRegOps emptyRegistry ops) k =
          lastWrite (resourceOps ops) k)
      ∧ List.Forall₂
          (fun k r => getResource (applyRegOps emptyRegistry ops) k = some r)
          ((applyRegOps emptyRegistry ops).resources.map Prod.fst)
          (getResources (applyRegOps emptyRegistry ops)))
  ∧ ((applyRegOps emptyRegistry ops).prompts.map Prod.fst =
        firstInsertKeys [] (promptOps ops)
      ∧ ((applyRegOps emptyRegistry ops).prompts.map Prod.fst).Nodup
      ∧ (∀ k, getPrompt (applyRegOps emptyRegistry ops) k =
          lastWrite (promptOps ops) k)
      ∧ List.Forall₂
          (fun k r => getPrompt (applyRegOps emptyRegistry ops) k = some r)
          ((applyRegOps emptyRegistry ops).prompts.map Prod.fst)
          (getPrompts (applyRegOps emptyRegistry ops))) := by
  refine ⟨⟨?_, ?_, ?_, ?_⟩, ⟨?_, ?_, ?_, ?_⟩, ⟨?_, ?_, ?_, ?_⟩⟩
  · rw [applyRegOps_tools]
    simpa using jsFold_keys (toolOps ops) []
  · rw [applyRegOps_tools]
    exact jsFold_keys_nodup (toolOps ops) [] (by simp)
  · intro k
    show jsLookup (applyRegOps emptyRegistry ops).tools k = _
    rw [applyRegOps_tools, jsFold_lookup]
    cases lastWrite (toolOps ops) k <;> rfl
  · have hnd : (((applyRegOps emptyRegistry ops).tools.map Prod.fst)).Nodup := by
      rw [applyRegOps_tools]
      exact jsFold_keys_nodup (toolOps ops) [] (by simp)
    exact assoc_list_forall2 _ hnd
  · rw [applyRegOps_resources]
    simpa using jsFold_keys (resourceOps ops) []
  · rw [applyRegOps_resources]
    exact jsFold_keys_nodup (resourceOps ops) [] (by simp)
  · intro k
    show jsLookup (applyRegOps emptyRegistry ops).resources k = _
    rw [applyRegOps_resources, jsFold_lookup]
    cases lastWrite (resourceOps ops) k <;> rfl
  · have hnd : (((applyRegOps emptyRegistry ops).resources.map Prod.fst)).Nodup := by
      rw [applyRegOps_resources]
      exact jsFold_keys_nodup (resourceOps ops) [] (by simp)
    exact assoc_list_forall2 _ hnd
  · rw [applyRegOps_prompts]
    simpa using jsFold_keys (promptOps ops) []
  · rw [applyRegOps_prompts]
    exact jsFold_keys_nodup (promptOps ops) [] (by simp)
  · intro k
    show jsLookup (applyRegOps emptyRegistry ops).prompts k = _
    rw [applyRegOps_prompts, jsFold_lookup]
    cases lastWrite (promptOps ops) k <;> rfl
  · have hnd : (((applyRegOps emptyRegistry ops).prompts.map Prod.fst)).Nodup := by
      rw [applyRegOps_prompts]
      exact jsFold_keys_nodup (promptOps ops) [] (by simp)
    exact assoc_list_forall2 _ hnd

end QuickMCP
